import Mathlib

/-!
Verification of `divide_scanned_photos.py`: a shallow embedding of its
region-detection, subprocess-handling and output-naming logic, with theorems
checking the specification's claims about it.
-/

namespace DivideScannedPhotos

/-- Splitting a character list at every occurrence of `sep`: the model of
Python `str.split(sep)` for a one-character separator (always returns at
least one group; no group contains `sep`). -/
def splitOnChar (sep : Char) : List Char → List (List Char)
  | [] => [[]]
  | c :: rest =>
    match splitOnChar sep rest with
    | [] => [[]]
    | grp :: r => if c = sep then [] :: grp :: r else (c :: grp) :: r

/-- Python `s.split(sep)` for a one-character separator `sep`. -/
def pySplit (s : String) (sep : Char) : List String :=
  (splitOnChar sep s.data).map (fun l => ⟨l⟩)

/-- Python `s.strip()`: leading and trailing whitespace removed
(whitespace per `Char.isWhitespace`). -/
def pyStrip (s : String) : String :=
  ⟨((s.data.dropWhile Char.isWhitespace).reverse.dropWhile Char.isWhitespace).reverse⟩

/-- Python `s.startswith(pre)`. -/
def pyStartswith (s pre : String) : Bool :=
  pre.data.isPrefixOf s.data

/-- A connected component parsed from the ImageMagick report (the
`ConnectedComponent` namedtuple in the source). `area` is an `Int` because
Python's `int()` accepts a sign. -/
structure ConnectedComponent where
  region : String
  area : Int
  mean_color : String
  deriving DecidableEq, Repr

/-- Value of a nonempty all-decimal-digit character list, for the model of
Python `int()`. -/
def digitsVal : List Char → Option Nat
  | [] => none
  | cs =>
    if cs.all Char.isDigit then
      some (cs.foldl (fun a c => 10 * a + (c.toNat - 48)) 0)
    else
      none

/-- Model of Python `int(s)`: surrounding whitespace stripped, then an
optional sign followed by a nonempty digit string; anything else raises
`ValueError` (here `none`). Underscore digit separators are not modelled. -/
def pyInt (s : String) : Option Int :=
  match (pyStrip s).data with
  | '-' :: rest => (digitsVal rest).map (fun n => -(n : Int))
  | '+' :: rest => (digitsVal rest).map (fun n => (n : Int))
  | cs => (digitsVal cs).map (fun n => (n : Int))

/-- `FRACTION_OF_LARGEST_AREA` (0.1 in the source; exact rational here). -/
def FRACTION_OF_LARGEST_AREA : ℚ := 1 / 10

/-- The mean-color test of `get_photo_regions`:
`component.mean_color == "srgb(0,0,0)" or
component.mean_color.startswith("srgba(0,0,0")`. -/
def isBlackMeanColor (c : String) : Bool :=
  c == "srgb(0,0,0)" || pyStartswith c "srgba(0,0,0"

/-- One iteration of the report-parsing loop in `get_photo_regions`:
`tokens = line.split(" ")`; a line whose token count differs from 7 is
skipped (`.ok none`); otherwise the component
`ConnectedComponent(tokens[3], int(tokens[5]), tokens[6])` is built, where a
failing `int()` raises `ValueError` (`.error ()`). -/
def parseLine (line : String) : Except Unit (Option ConnectedComponent) :=
  let tokens := pySplit line ' '
  if tokens.length = 7 then
    match pyInt (tokens.getD 5 "") with
    | none => .error ()
    | some a => .ok (some ⟨tokens.getD 3 "", a, tokens.getD 6 ""⟩)
  else
    .ok none

/-- The candidate-collection loop of `get_photo_regions`: walks the report
lines accumulating `components` and `max_area` (initially 1); a parsed
component whose mean color is black is appended and bumps `max_area`, all
other parsed components are dropped. -/
def scanLoop : List String → List ConnectedComponent → Int →
    Except Unit (List ConnectedComponent × Int)
  | [], components, max_area => .ok (components, max_area)
  | line :: rest, components, max_area =>
    match parseLine line with
    | .error e => .error e
    | .ok none => scanLoop rest components max_area
    | .ok (some component) =>
      if isBlackMeanColor component.mean_color then
        scanLoop rest (components ++ [component]) (max max_area component.area)
      else
        scanLoop rest components max_area

/-- The area filter of `get_photo_regions`:
`component.area >= FRACTION_OF_LARGEST_AREA * max_area`, stated with the
denominator cleared (over exact arithmetic `0.1 * m ≤ a ↔ m ≤ 10 * a`) so
that the test is kernel-computable; `areaOK_iff` below relates it to the
source's rational inequality. -/
def areaOK (max_area : Int) (component : ConnectedComponent) : Bool :=
  decide (max_area ≤ 10 * component.area)

/-- The component lines of an engine report:
`run_command(cmd).split("\n")[1:]` — every line but the first. -/
def reportLines (report : String) : List String :=
  (pySplit report '\n').drop 1

/-- `get_photo_regions`, parameterised by the engine report text (the
stripped stdout of the `convert -connected-components` invocation): the
first line is dropped, the candidate scan runs over the rest, and the
candidates passing the area filter are returned in order. -/
def get_photo_regions (report : String) : Except Unit (List ConnectedComponent) := do
  let (components, max_area) ← scanLoop (reportLines report) [] 1
  return components.filter (areaOK max_area)

/-- Spec-side view: all components parsed from the report lines, before the
mean-color classification. -/
def parsedComponentsOf (lines : List String) : List ConnectedComponent :=
  lines.filterMap (fun l =>
    match parseLine l with
    | .ok (some c) => some c
    | _ => none)

/-- Spec-side view: the black-mean-color components among the parsed ones. -/
def blackComponentsOf (lines : List String) : List ConnectedComponent :=
  (parsedComponentsOf lines).filter (fun c => isBlackMeanColor c.mean_color)

/-- `max_area` as the claims describe it: the maximum area among the given
components, defaulting to 1 when there are none. -/
def maxAreaOf (comps : List ConnectedComponent) : Int :=
  comps.foldl (fun m c => max m c.area) 1

/-- Outcome of one engine subprocess (`subprocess.Popen` plus
`communicate()`): captured stdout, stderr and exit status. -/
structure ProcResult where
  stdout : String
  stderr : String
  returncode : Int
  deriving Repr

/-- Result of `run_command`: the fatal assertion message or the stripped
stdout, together with the warnings logged on the way. -/
structure RunOutcome where
  result : Except String String
  warnings : List String
  deriving Repr

/-- An ASCII single-quote character, used in the assertion message. -/
def squote : String := ⟨[Char.ofNat 39]⟩

/-- `run_command`, parameterised by the subprocess outcome `p` of command
`cmd`: stdout and stderr are stripped; a non-empty stderr is logged as a
warning; a non-zero exit status fails the assertion whose message carries
the command text and the stripped stderr; otherwise the stripped stdout is
returned. -/
def run_command (cmd : String) (p : ProcResult) : RunOutcome :=
  let stdout := pyStrip p.stdout
  let stderr := pyStrip p.stderr
  { warnings := if stderr = "" then [] else ["stderr: " ++ stderr]
    result :=
      if p.returncode = 0 then
        .ok stdout
      else
        .error ("Command: " ++ squote ++ cmd ++ squote ++ " failed with " ++
          squote ++ stderr ++ squote ++ ".") }

/-- `os.path.join(a, b)` for POSIX paths. -/
def os_path_join (a b : String) : String :=
  if b.data.head? = some '/' then b
  else if a = "" then b
  else if a.data.getLast? = some '/' then a ++ b
  else a ++ "/" ++ b

/-- The prefix of `cs` up to and including its last slash: the
`p[:p.rfind("/") + 1]` step of `os.path.dirname`. -/
def upToLastSlash : List Char → List Char
  | [] => []
  | c :: rest =>
    let t := upToLastSlash rest
    if t = [] then (if c = '/' then [c] else []) else c :: t

/-- `os.path.dirname(p)` for POSIX paths: everything up to the last slash,
with trailing slashes stripped unless the result is all slashes. -/
def os_path_dirname (p : String) : String :=
  let head := upToLastSlash p.data
  if head.isEmpty then ⟨head⟩
  else if head.all (fun c => c == '/') then ⟨head⟩
  else ⟨(head.reverse.dropWhile (fun c => c == '/')).reverse⟩

/-- The `output_dir` selection in `main`:
`args.output_dir if args.output_dir else os.path.dirname(args.input)`
(Python truthiness: the empty string selects the default). -/
def resolve_output_dir (input output_dir : String) : String :=
  if output_dir = "" then os_path_dirname input else output_dir

/-- The output-path loop of `divide_crop_and_straighten`: one path per
region, `os.path.join(output_dir, f"{counter}_{input_filename}")`, with
`counter` starting at 0 and incremented per region; returned in the order
written. -/
def outputPaths : List ConnectedComponent → Nat → String → String → List String
  | [], _, _, _ => []
  | _ :: rest, counter, output_dir, input_filename =>
    os_path_join output_dir (Nat.repr counter ++ "_" ++ input_filename) ::
      outputPaths rest (counter + 1) output_dir input_filename

/-- `divide_crop_and_straighten`, abstracted over the detected regions: the
sequence of output file paths it writes, in order. -/
def divide_crop_and_straighten (photo_regions : List ConnectedComponent)
    (output_dir input_filename : String) : List String :=
  outputPaths photo_regions 0 output_dir input_filename

/-! ### Helper lemmas -/

theorem areaOK_iff (m : Int) (c : ConnectedComponent) :
    areaOK m c = true ↔ FRACTION_OF_LARGEST_AREA * (m : ℚ) ≤ (c.area : ℚ) := by
  unfold areaOK FRACTION_OF_LARGEST_AREA
  rw [decide_eq_true_eq]
  rw [div_mul_eq_mul_div, one_mul, div_le_iff₀ (by norm_num : (0:ℚ) < 10)]
  constructor
  · intro h
    have h2 : ((m : Int) : ℚ) ≤ ((10 * c.area : Int) : ℚ) := Int.cast_le.mpr h
    push_cast at h2
    linarith
  · intro h
    have h2 : ((m : Int) : ℚ) ≤ ((10 * c.area : Int) : ℚ) := by push_cast; linarith
    exact Int.cast_le.mp h2

theorem blackComponentsOf_nil : blackComponentsOf [] = [] := rfl

theorem blackComponentsOf_cons_none {l : String} {ls : List String}
    (h : parseLine l = .ok none) :
    blackComponentsOf (l :: ls) = blackComponentsOf ls := by
  simp [blackComponentsOf, parsedComponentsOf, List.filterMap_cons, h]

theorem blackComponentsOf_cons_some {l : String} {ls : List String}
    {c : ConnectedComponent} (h : parseLine l = .ok (some c)) :
    blackComponentsOf (l :: ls) =
      (if isBlackMeanColor c.mean_color then [c] else []) ++ blackComponentsOf ls := by
  simp only [blackComponentsOf, parsedComponentsOf, List.filterMap_cons, h]
  cases hb : isBlackMeanColor c.mean_color <;> simp [List.filter_cons, hb]

theorem scanLoop_ok (lines : List String) :
    ∀ (acc : List ConnectedComponent) (m : Int)
      (comps : List ConnectedComponent) (mx : Int),
      scanLoop lines acc m = .ok (comps, mx) →
      comps = acc ++ blackComponentsOf lines ∧
      mx = (blackComponentsOf lines).foldl (fun a c => max a c.area) m := by
  induction lines with
  | nil =>
    intro acc m comps mx h
    simp [scanLoop] at h
    simp [blackComponentsOf_nil, h.1, h.2]
  | cons line rest ih =>
    intro acc m comps mx h
    rw [scanLoop] at h
    split at h
    · exact Except.noConfusion h
    · rename_i heq
      rw [blackComponentsOf_cons_none heq]
      exact ih acc m comps mx h
    · rename_i component heq
      rw [blackComponentsOf_cons_some heq]
      by_cases hb : isBlackMeanColor component.mean_color = true
      · rw [if_pos hb] at h
        rw [if_pos hb]
        obtain ⟨h1, h2⟩ := ih (acc ++ [component]) (max m component.area) comps mx h
        constructor
        · rw [h1]
          simp
        · rw [h2]
          simp
      · rw [if_neg hb] at h
        rw [if_neg hb]
        simpa using ih acc m comps mx h

theorem get_photo_regions_ok (report : String) (res : List ConnectedComponent)
    (h : get_photo_regions report = .ok res) :
    res = (blackComponentsOf (reportLines report)).filter
        (areaOK (maxAreaOf (blackComponentsOf (reportLines report)))) := by
  unfold get_photo_regions at h
  cases hs : scanLoop (reportLines report) [] 1 with
  | error e =>
    rw [hs] at h
    simp [Bind.bind, Except.bind] at h
  | ok pr =>
    obtain ⟨comps, mx⟩ := pr
    rw [hs] at h
    simp [Bind.bind, Except.bind, pure, Except.pure] at h
    obtain ⟨h1, h2⟩ := scanLoop_ok _ _ _ _ _ hs
    rw [← h, h1, h2]
    simp [maxAreaOf]

theorem parseLine_eq_skip (line : String) (h : (pySplit line ' ').length ≠ 7) :
    parseLine line = .ok none := by
  simp only [parseLine]
  split
  · rename_i hc
    exact absurd hc h
  · rfl

theorem parseLine_eq_component (line : String) (a : Int)
    (h7 : (pySplit line ' ').length = 7)
    (ha : pyInt ((pySplit line ' ').getD 5 "") = some a) :
    parseLine line =
      .ok (some ⟨(pySplit line ' ').getD 3 "", a, (pySplit line ' ').getD 6 ""⟩) := by
  simp only [parseLine]
  split
  · split
    · rename_i hnone
      rw [ha] at hnone
      exact Option.noConfusion hnone
    · rename_i a2 hsome
      rw [ha] at hsome
      have h2 : a = a2 := by
        simpa using hsome
      subst h2
      rfl
  · rename_i hc
    exact absurd h7 hc

theorem parseLine_eq_error (line : String)
    (h7 : (pySplit line ' ').length = 7)
    (ha : pyInt ((pySplit line ' ').getD 5 "") = none) :
    parseLine line = .error () := by
  simp only [parseLine]
  split
  · split
    · rfl
    · rename_i a2 hsome
      rw [ha] at hsome
      exact Option.noConfusion hsome
  · rename_i hc
    exact absurd h7 hc

theorem scanLoop_cons_skip (line : String) (rest : List String)
    (acc : List ConnectedComponent) (m : Int) (hp : parseLine line = .ok none) :
    scanLoop (line :: rest) acc m = scanLoop rest acc m := by
  rw [scanLoop]
  split
  · rename_i e heq
    rw [hp] at heq
    exact Except.noConfusion heq
  · rfl
  · rename_i comp heq
    rw [hp] at heq
    simp at heq

theorem scanLoop_cons_error (line : String) (rest : List String)
    (acc : List ConnectedComponent) (m : Int) (hp : parseLine line = .error ()) :
    scanLoop (line :: rest) acc m = .error () := by
  rw [scanLoop]
  split
  · rename_i e heq
    rfl
  · rename_i heq
    rw [hp] at heq
    exact Except.noConfusion heq
  · rename_i comp heq
    rw [hp] at heq
    exact Except.noConfusion heq

theorem scanLoop_cons_black (line : String) (rest : List String)
    (acc : List ConnectedComponent) (m : Int) (comp : ConnectedComponent)
    (hp : parseLine line = .ok (some comp))
    (hb : isBlackMeanColor comp.mean_color = true) :
    scanLoop (line :: rest) acc m = scanLoop rest (acc ++ [comp]) (max m comp.area) := by
  rw [scanLoop]
  split
  · rename_i e heq
    rw [hp] at heq
    exact Except.noConfusion heq
  · rename_i heq
    rw [hp] at heq
    simp at heq
  · rename_i comp2 heq
    rw [hp] at heq
    have hc : comp = comp2 := by
      simpa using heq
    subst hc
    rw [if_pos hb]

theorem scanLoop_cons_nonblack (line : String) (rest : List String)
    (acc : List ConnectedComponent) (m : Int) (comp : ConnectedComponent)
    (hp : parseLine line = .ok (some comp))
    (hb : isBlackMeanColor comp.mean_color = false) :
    scanLoop (line :: rest) acc m = scanLoop rest acc m := by
  rw [scanLoop]
  split
  · rename_i e heq
    rw [hp] at heq
    exact Except.noConfusion heq
  · rfl
  · rename_i comp2 heq
    rw [hp] at heq
    have hc : comp = comp2 := by
      simpa using heq
    subst hc
    rw [if_neg (by simp [hb])]

/-! ### Claims -/

/-- C1: for every connected-component report, when `get_photo_regions`
returns a sequence of photo regions, its length is at most the number of
component lines in the report, and every returned region has
`area >= 0.1 * max_area`, where `max_area` is the maximum area among the
black-mean-color components (defaulting to 1 when there are none). -/
theorem C1_count_bound_and_area_threshold (report : String)
    (res : List ConnectedComponent)
    (h : get_photo_regions report = .ok res) :
    res.length ≤ (reportLines report).length ∧
    ∀ r ∈ res,
      FRACTION_OF_LARGEST_AREA *
        ((maxAreaOf (blackComponentsOf (reportLines report))) : ℚ) ≤ (r.area : ℚ) := by
  have hr := get_photo_regions_ok report res h
  constructor
  · have t1 : ((blackComponentsOf (reportLines report)).filter
        (areaOK (maxAreaOf (blackComponentsOf (reportLines report))))).length ≤
        (blackComponentsOf (reportLines report)).length := List.length_filter_le _ _
    have t2 : (blackComponentsOf (reportLines report)).length ≤
        (parsedComponentsOf (reportLines report)).length := by
      unfold blackComponentsOf
      exact List.length_filter_le _ _
    have t3 : (parsedComponentsOf (reportLines report)).length ≤
        (reportLines report).length := by
      unfold parsedComponentsOf
      exact List.length_filterMap_le _ _
    rw [hr]
    omega
  · intro r hrm
    rw [hr] at hrm
    exact (areaOK_iff _ _).mp (List.mem_filter.mp hrm).2

/-- Witness for C1 on a concrete two-component report. -/
theorem C1_count_bound_and_area_threshold_witness :
    get_photo_regions
        "header\n0x0 1 2 10x10+0+0 4 5000 srgb(0,0,0)\n0x0 1 2 2x2+0+0 4 10 srgb(0,0,0)" =
      .ok [⟨"10x10+0+0", 5000, "srgb(0,0,0)"⟩] ∧
    (([(⟨"10x10+0+0", 5000, "srgb(0,0,0)"⟩ : ConnectedComponent)]).length ≤
        (reportLines
          "header\n0x0 1 2 10x10+0+0 4 5000 srgb(0,0,0)\n0x0 1 2 2x2+0+0 4 10 srgb(0,0,0)").length ∧
      ∀ r ∈ [(⟨"10x10+0+0", 5000, "srgb(0,0,0)"⟩ : ConnectedComponent)],
        FRACTION_OF_LARGEST_AREA *
          ((maxAreaOf (blackComponentsOf (reportLines
            "header\n0x0 1 2 10x10+0+0 4 5000 srgb(0,0,0)\n0x0 1 2 2x2+0+0 4 10 srgb(0,0,0)"))) : ℚ) ≤
          (r.area : ℚ)) :=
  ⟨rfl, C1_count_bound_and_area_threshold _ _ rfl⟩

/-- C2: a parsed connected component is kept as a photo candidate iff its
mean color is black — exactly "srgb(0,0,0)" or an alpha-qualified black
beginning "srgba(0,0,0" — and every other parsed component is dropped
before the area filter: the candidate list produced by the scan equals the
parsed components filtered by the black-mean-color test. -/
theorem C2_kept_iff_black (lines : List String) (comps : List ConnectedComponent)
    (mx : Int) (h : scanLoop lines [] 1 = .ok (comps, mx)) :
    comps = (parsedComponentsOf lines).filter (fun c => isBlackMeanColor c.mean_color) ∧
    ∀ s : String,
      isBlackMeanColor s = (s == "srgb(0,0,0)" || pyStartswith s "srgba(0,0,0") := by
  refine ⟨?_, fun s => rfl⟩
  have h1 := (scanLoop_ok lines [] 1 comps mx h).1
  simpa [blackComponentsOf] using h1

/-- Witness for C2 on a concrete mixed-color line list. -/
theorem C2_kept_iff_black_witness :
    scanLoop
        ["0x0 1 2 A 4 7 srgb(0,0,0)", "0x0 1 2 B 4 9 srgb(255,255,255)",
          "0x0 1 2 C 4 8 srgba(0,0,0,1)"] [] 1 =
      .ok ([⟨"A", 7, "srgb(0,0,0)"⟩, ⟨"C", 8, "srgba(0,0,0,1)"⟩], 8) ∧
    (([(⟨"A", 7, "srgb(0,0,0)"⟩ : ConnectedComponent), ⟨"C", 8, "srgba(0,0,0,1)"⟩]) =
        (parsedComponentsOf
          ["0x0 1 2 A 4 7 srgb(0,0,0)", "0x0 1 2 B 4 9 srgb(255,255,255)",
            "0x0 1 2 C 4 8 srgba(0,0,0,1)"]).filter
          (fun c => isBlackMeanColor c.mean_color) ∧
      ∀ s : String,
        isBlackMeanColor s = (s == "srgb(0,0,0)" || pyStartswith s "srgba(0,0,0")) :=
  ⟨rfl, C2_kept_iff_black _ _ _ rfl⟩

/-- C8: the returned sequence preserves the engine's order — the filtered
photo regions form an order-preserving subsequence (`List.Sublist`) of the
components as parsed from the report, with no re-sorting. -/
theorem C8_order_preserving_subsequence (report : String)
    (res : List ConnectedComponent) (h : get_photo_regions report = .ok res) :
    List.Sublist res (parsedComponentsOf (reportLines report)) := by
  have hr := get_photo_regions_ok report res h
  rw [hr]
  have h1 : List.Sublist
      ((blackComponentsOf (reportLines report)).filter
        (areaOK (maxAreaOf (blackComponentsOf (reportLines report)))))
      (blackComponentsOf (reportLines report)) := List.filter_sublist _
  have h2 : List.Sublist (blackComponentsOf (reportLines report))
      (parsedComponentsOf (reportLines report)) := by
    unfold blackComponentsOf
    exact List.filter_sublist _
  exact h1.trans h2

/-- Witness for C8 on a concrete report whose middle component is dropped. -/
theorem C8_order_preserving_subsequence_witness :
    get_photo_regions
        "header\n0x0 1 2 A 4 5000 srgb(0,0,0)\n0x0 1 2 B 4 10 srgb(0,0,0)\n0x0 1 2 C 4 600 srgb(0,0,0)" =
      .ok [⟨"A", 5000, "srgb(0,0,0)"⟩, ⟨"C", 600, "srgb(0,0,0)"⟩] ∧
    List.Sublist [(⟨"A", 5000, "srgb(0,0,0)"⟩ : ConnectedComponent), ⟨"C", 600, "srgb(0,0,0)"⟩]
      (parsedComponentsOf (reportLines
        "header\n0x0 1 2 A 4 5000 srgb(0,0,0)\n0x0 1 2 B 4 10 srgb(0,0,0)\n0x0 1 2 C 4 600 srgb(0,0,0)")) :=
  ⟨rfl, C8_order_preserving_subsequence _ _ rfl⟩

/-- C3 counterexample: a report in which no component line has a black
mean-color field (and no black component is parsed at all), on which
`get_photo_regions` nevertheless fails: its single 7-token line has a
non-integer area field, and `int()` raises before the color test runs. -/
theorem C3_counterexample :
    ((reportLines "h\na b c d e x red").all
      (fun l => !(isBlackMeanColor ((pySplit l ' ').getD 6 "")))) = true ∧
    blackComponentsOf (reportLines "h\na b c d e x red") = [] ∧
    get_photo_regions "h\na b c d e x red" = .error () :=
  ⟨rfl, rfl, rfl⟩

/-- C3 (amended): for every report in which every 7-token component line
has a valid integer area field and a non-black mean-color field,
`get_photo_regions` returns the empty sequence without failing — `max_area`
stays at its default of 1 and the empty candidate list is filtered to an
empty result, reported as a count of 0 rather than an error. -/
theorem C3_no_black_means_empty_ok (report : String)
    (h : ∀ l ∈ reportLines report, (pySplit l ' ').length = 7 →
      pyInt ((pySplit l ' ').getD 5 "") ≠ none ∧
      isBlackMeanColor ((pySplit l ' ').getD 6 "") = false) :
    get_photo_regions report = .ok [] := by
  have key : ∀ (lines : List String),
      (∀ l ∈ lines, (pySplit l ' ').length = 7 →
        pyInt ((pySplit l ' ').getD 5 "") ≠ none ∧
        isBlackMeanColor ((pySplit l ' ').getD 6 "") = false) →
      ∀ (acc : List ConnectedComponent) (m : Int),
        scanLoop lines acc m = .ok (acc, m) := by
    intro lines
    induction lines with
    | nil =>
      intro _ acc m
      rfl
    | cons line rest ih =>
      intro hh acc m
      have hrest := fun l hl => hh l (List.mem_cons_of_mem _ hl)
      by_cases h7 : (pySplit line ' ').length = 7
      · obtain ⟨hint, hblack⟩ := hh line (List.mem_cons_self _ _) h7
        cases ha : pyInt ((pySplit line ' ').getD 5 "") with
        | none => exact absurd ha hint
        | some a =>
          rw [scanLoop_cons_nonblack line rest acc m _
            (parseLine_eq_component line a h7 ha) hblack]
          exact ih hrest acc m
      · rw [scanLoop_cons_skip line rest acc m (parseLine_eq_skip line h7)]
        exact ih hrest acc m
  unfold get_photo_regions
  rw [key (reportLines report) h [] 1]
  rfl

/-- Witness for the amended C3 on a concrete all-non-black report. -/
theorem C3_no_black_means_empty_ok_witness :
    (∀ l ∈ reportLines "hdr\n0x0 1 2 9x9+0+0 4 5 srgb(255,255,255)\nshort line",
      (pySplit l ' ').length = 7 →
      pyInt ((pySplit l ' ').getD 5 "") ≠ none ∧
      isBlackMeanColor ((pySplit l ' ').getD 6 "") = false) ∧
    get_photo_regions "hdr\n0x0 1 2 9x9+0+0 4 5 srgb(255,255,255)\nshort line" = .ok [] :=
  ⟨by decide, C3_no_black_means_empty_ok _ (by decide)⟩

/-- C4: the parser discards exactly the first line of the report as a
header (the result depends only on `split("\n")[1:]`), and a remaining
line with exactly 7 whitespace tokens yields one component from token
index 3 (region), the integer value of token index 5 (area) and token
index 6 (mean color), while a line with any other token count is
skipped. -/
theorem C4_report_format :
    (∀ r1 r2 : String, reportLines r1 = reportLines r2 →
      get_photo_regions r1 = get_photo_regions r2) ∧
    (∀ report : String, reportLines report = (pySplit report '\n').drop 1) ∧
    (∀ (line : String) (a : Int), (pySplit line ' ').length = 7 →
      pyInt ((pySplit line ' ').getD 5 "") = some a →
      parseLine line =
        .ok (some ⟨(pySplit line ' ').getD 3 "", a, (pySplit line ' ').getD 6 ""⟩)) ∧
    (∀ line : String, (pySplit line ' ').length ≠ 7 → parseLine line = .ok none) := by
  refine ⟨?_, fun _ => rfl, parseLine_eq_component, parseLine_eq_skip⟩
  intro r1 r2 hr
  unfold get_photo_regions
  rw [hr]

/-- Witness for C4 on a concrete 7-token line and a concrete short line. -/
theorem C4_report_format_witness :
    ((pySplit "0x0 1 2 10x10+0+0 4 50 srgb(0,0,0)" ' ').length = 7 ∧
      pyInt ((pySplit "0x0 1 2 10x10+0+0 4 50 srgb(0,0,0)" ' ').getD 5 "") = some 50 ∧
      parseLine "0x0 1 2 10x10+0+0 4 50 srgb(0,0,0)" =
        .ok (some ⟨"10x10+0+0", 50, "srgb(0,0,0)"⟩)) ∧
    ((pySplit "too short" ' ').length ≠ 7 ∧ parseLine "too short" = .ok none) :=
  ⟨⟨by decide, rfl, C4_report_format.2.2.1 "0x0 1 2 10x10+0+0 4 50 srgb(0,0,0)" 50
      (by decide) rfl⟩,
    ⟨by decide, C4_report_format.2.2.2 "too short" (by decide)⟩⟩

/-- C5 counterexample: a malformed component line — exactly 7 tokens but a
non-integer area field — is not skipped silently: `get_photo_regions`
raises on it instead of completing. -/
theorem C5_counterexample :
    ((pySplit "0x0 1 2 10x10+0+0 4 oops srgb(0,0,0)" ' ').length = 7) ∧
    get_photo_regions "hdr\n0x0 1 2 10x10+0+0 4 oops srgb(0,0,0)" = .error () :=
  ⟨rfl, rfl⟩

/-- C5 (amended): a report line whose token count differs from 7 is
silently skipped — it yields no component and leaves the scan state
unchanged — but a line with exactly 7 tokens whose area field is not a
valid integer raises a fatal error instead of being tolerated. -/
theorem C5_malformed_line_handling :
    (∀ line : String, (pySplit line ' ').length ≠ 7 → parseLine line = .ok none) ∧
    (∀ (line : String) (rest : List String) (acc : List ConnectedComponent) (m : Int),
      (pySplit line ' ').length ≠ 7 →
      scanLoop (line :: rest) acc m = scanLoop rest acc m) ∧
    (∀ line : String, (pySplit line ' ').length = 7 →
      pyInt ((pySplit line ' ').getD 5 "") = none →
      scanLoop [line] [] 1 = .error ()) := by
  refine ⟨parseLine_eq_skip, ?_, ?_⟩
  · intro line rest acc m h7
    exact scanLoop_cons_skip line rest acc m (parseLine_eq_skip line h7)
  · intro line h7 ha
    exact scanLoop_cons_error line [] [] 1 (parseLine_eq_error line h7 ha)

/-- Witness for the amended C5: a short line is skipped with the state
unchanged; a 7-token line with area field "oops" raises. -/
theorem C5_malformed_line_handling_witness :
    ((pySplit "short line" ' ').length ≠ 7 ∧
      scanLoop ["short line"] [] 1 = scanLoop [] [] 1) ∧
    ((pySplit "0x0 1 2 10x10+0+0 4 oops srgb(0,0,0)" ' ').length = 7 ∧
      pyInt ((pySplit "0x0 1 2 10x10+0+0 4 oops srgb(0,0,0)" ' ').getD 5 "") = none ∧
      scanLoop ["0x0 1 2 10x10+0+0 4 oops srgb(0,0,0)"] [] 1 = .error ()) :=
  ⟨⟨by decide, C5_malformed_line_handling.2.1 "short line" [] [] 1 (by decide)⟩,
    ⟨by decide, rfl, C5_malformed_line_handling.2.2 "0x0 1 2 10x10+0+0 4 oops srgb(0,0,0)"
      (by decide) rfl⟩⟩

theorem digitChar_ne_slash (n : Nat) : Nat.digitChar n ≠ '/' := by
  rcases Nat.lt_or_ge n 16 with h | h
  · interval_cases n <;> decide
  · intro hc
    unfold Nat.digitChar at hc
    iterate 16 rw [if_neg (by omega)] at hc
    exact absurd hc (by decide)

theorem toDigitsCore_ne_slash (fuel : Nat) : ∀ (n : Nat) (acc : List Char),
    (∀ c ∈ acc, c ≠ '/') → ∀ c ∈ Nat.toDigitsCore 10 fuel n acc, c ≠ '/' := by
  induction fuel with
  | zero =>
    intro n acc h c hc
    rw [Nat.toDigitsCore] at hc
    exact h c hc
  | succ f ih =>
    intro n acc h c hc
    simp only [Nat.toDigitsCore] at hc
    split at hc
    · rcases List.mem_cons.mp hc with h1 | h1
      · rw [h1]
        exact digitChar_ne_slash _
      · exact h c h1
    · refine ih _ _ ?_ c hc
      intro d hd
      rcases List.mem_cons.mp hd with h1 | h1
      · rw [h1]
        exact digitChar_ne_slash _
      · exact h d h1

theorem repr_data_ne_slash (n : Nat) : ∀ c ∈ (Nat.repr n).data, c ≠ '/' := by
  intro c hc
  exact toDigitsCore_ne_slash (n + 1) n [] (by intro d hd; cases hd) c hc

theorem outputName_head_ne_slash (i : Nat) (fname : String) :
    (Nat.repr i ++ "_" ++ fname).data.head? ≠ some '/' := by
  rw [String.data_append, String.data_append]
  cases hd : (Nat.repr i).data with
  | nil =>
    intro hcontra
    have hu : "_".data = ['_'] := rfl
    rw [List.nil_append, hu, List.cons_append, List.head?_cons] at hcontra
    exact absurd hcontra (by decide)
  | cons a t =>
    intro hcontra
    rw [List.cons_append, List.cons_append, List.head?_cons] at hcontra
    have ha : a = '/' := Option.some.inj hcontra
    exact repr_data_ne_slash i a (by rw [hd]; exact List.mem_cons_self _ _) ha

theorem os_path_join_normal (a b : String) (hb : b.data.head? ≠ some '/')
    (ha1 : a ≠ "") (ha2 : a.data.getLast? ≠ some '/') :
    os_path_join a b = a ++ "/" ++ b := by
  unfold os_path_join
  rw [if_neg hb, if_neg ha1, if_neg ha2]

theorem outputPaths_length (regions : List ConnectedComponent) :
    ∀ (ctr : Nat) (dir fname : String),
      (outputPaths regions ctr dir fname).length = regions.length := by
  induction regions with
  | nil =>
    intro ctr dir fname
    rfl
  | cons r rest ih =>
    intro ctr dir fname
    simp [outputPaths, ih]

theorem outputPaths_getD (regions : List ConnectedComponent) :
    ∀ (ctr : Nat) (dir fname : String) (i : Nat), i < regions.length →
      (outputPaths regions ctr dir fname).getD i "" =
        os_path_join dir (Nat.repr (ctr + i) ++ "_" ++ fname) := by
  induction regions with
  | nil =>
    intro ctr dir fname i hi
    simp at hi
  | cons r rest ih =>
    intro ctr dir fname i hi
    cases i with
    | zero =>
      simp [outputPaths]
    | succ j =>
      have hj : j < rest.length := by
        simpa using hi
      simp only [outputPaths, List.getD_cons_succ]
      rw [ih (ctr + 1) dir fname j hj]
      have harith : ctr + 1 + j = ctr + (j + 1) := by omega
      rw [harith]

theorem foldl_max_init_le (l : List ConnectedComponent) : ∀ (init : Int),
    init ≤ l.foldl (fun a c => max a c.area) init := by
  induction l with
  | nil =>
    intro init
    exact le_refl _
  | cons c rest ih =>
    intro init
    exact le_trans (le_max_left _ _) (ih (max init c.area))

theorem foldl_max_attained (l : List ConnectedComponent) : ∀ (init : Int),
    l.foldl (fun a c => max a c.area) init = init ∨
    ∃ c ∈ l, l.foldl (fun a c => max a c.area) init = c.area := by
  induction l with
  | nil =>
    intro init
    exact Or.inl rfl
  | cons c rest ih =>
    intro init
    rcases ih (max init c.area) with h | h
    · rcases max_cases init c.area with ⟨he, _⟩ | ⟨he, _⟩
      · left
        simp only [List.foldl_cons]
        rw [h, he]
      · right
        exact ⟨c, List.mem_cons_self _ _, by simp only [List.foldl_cons]; rw [h, he]⟩
    · obtain ⟨d, hd, he⟩ := h
      right
      exact ⟨d, List.mem_cons_of_mem _ hd, by simp only [List.foldl_cons]; rw [he]⟩

/-- C6: for every detected region sequence of length N, the processor
writes exactly N output files (zero regions, zero files), named
`{output_dir}/{i}_{input_basename}` for `i` in `0..N-1` in detection order
with no gaps or reordering (stated for an output directory that is nonempty
and has no trailing slash, as `os.path.join` inserts the separator). -/
theorem C6_output_count_and_names (photo_regions : List ConnectedComponent)
    (output_dir input_filename : String)
    (h1 : output_dir ≠ "") (h2 : output_dir.data.getLast? ≠ some '/') :
    (divide_crop_and_straighten photo_regions output_dir input_filename).length =
      photo_regions.length ∧
    ∀ i < photo_regions.length,
      (divide_crop_and_straighten photo_regions output_dir input_filename).getD i "" =
        output_dir ++ "/" ++ (Nat.repr i ++ "_" ++ input_filename) := by
  constructor
  · exact outputPaths_length _ 0 _ _
  · intro i hi
    unfold divide_crop_and_straighten
    rw [outputPaths_getD _ 0 _ _ i hi, Nat.zero_add]
    exact os_path_join_normal _ _ (outputName_head_ne_slash i input_filename) h1 h2

/-- Witness for C6 with two regions and output directory "/out". -/
theorem C6_output_count_and_names_witness :
    (("/out" : String) ≠ "" ∧ ("/out" : String).data.getLast? ≠ some '/') ∧
    ((divide_crop_and_straighten
        [⟨"A", 5, "srgb(0,0,0)"⟩, ⟨"B", 6, "srgb(0,0,0)"⟩] "/out" "image.png").length =
      ([(⟨"A", 5, "srgb(0,0,0)"⟩ : ConnectedComponent), ⟨"B", 6, "srgb(0,0,0)"⟩]).length ∧
      ∀ i < ([(⟨"A", 5, "srgb(0,0,0)"⟩ : ConnectedComponent), ⟨"B", 6, "srgb(0,0,0)"⟩]).length,
        (divide_crop_and_straighten
          [⟨"A", 5, "srgb(0,0,0)"⟩, ⟨"B", 6, "srgb(0,0,0)"⟩] "/out" "image.png").getD i "" =
          "/out" ++ "/" ++ (Nat.repr i ++ "_" ++ "image.png")) :=
  ⟨⟨by decide, by decide⟩,
    C6_output_count_and_names [⟨"A", 5, "srgb(0,0,0)"⟩, ⟨"B", 6, "srgb(0,0,0)"⟩]
      "/out" "image.png" (by decide) (by decide)⟩

/-- C7: a non-zero engine exit status is a fatal error whose message
carries the command text and the stripped captured stderr; non-empty
stderr under a zero exit status is only logged as a warning and the
stripped stdout is returned. -/
theorem C7_exit_status_handling (cmd : String) (p : ProcResult) :
    (p.returncode ≠ 0 →
      ∃ msg : String, (run_command cmd p).result = .error msg ∧
        (∃ pre suf : String, msg = pre ++ cmd ++ suf) ∧
        (∃ pre suf : String, msg = pre ++ pyStrip p.stderr ++ suf)) ∧
    (p.returncode = 0 →
      (run_command cmd p).result = .ok (pyStrip p.stdout) ∧
      (pyStrip p.stderr ≠ "" →
        (run_command cmd p).warnings = ["stderr: " ++ pyStrip p.stderr])) := by
  constructor
  · intro hnz
    refine ⟨"Command: " ++ squote ++ cmd ++ squote ++ " failed with " ++
      squote ++ pyStrip p.stderr ++ squote ++ ".", ?_, ?_, ?_⟩
    · simp only [run_command]
      rw [if_neg hnz]
    · exact ⟨"Command: " ++ squote,
        squote ++ " failed with " ++ squote ++ pyStrip p.stderr ++ squote ++ ".",
        by simp [String.append_assoc]⟩
    · exact ⟨"Command: " ++ squote ++ cmd ++ squote ++ " failed with " ++ squote,
        squote ++ ".", by simp [String.append_assoc]⟩
  · intro hz
    constructor
    · simp only [run_command]
      rw [if_pos hz]
    · intro hne
      simp only [run_command]
      rw [if_neg hne]

/-- Witness for C7: a failing invocation carries command and stderr in its
error; a succeeding one with stderr returns stdout and logs a warning. -/
theorem C7_exit_status_handling_witness :
    ((1 : Int) ≠ 0 ∧
      ∃ msg : String,
        (run_command "convert in.png out.png" ⟨"", "convert: no such file", 1⟩).result =
          .error msg ∧
        (∃ pre suf : String, msg = pre ++ "convert in.png out.png" ++ suf) ∧
        (∃ pre suf : String,
          msg = pre ++ pyStrip "convert: no such file" ++ suf)) ∧
    ((0 : Int) = 0 ∧
      (run_command "convert a b" ⟨" out ", "warn", 0⟩).result = .ok (pyStrip " out ") ∧
      (pyStrip "warn" ≠ "" →
        (run_command "convert a b" ⟨" out ", "warn", 0⟩).warnings =
          ["stderr: " ++ pyStrip "warn"])) :=
  ⟨⟨by decide,
      (C7_exit_status_handling "convert in.png out.png" ⟨"", "convert: no such file", 1⟩).1
        (by decide)⟩,
    ⟨rfl, (C7_exit_status_handling "convert a b" ⟨" out ", "warn", 0⟩).2 rfl⟩⟩

/-- C9: when the output-directory argument is omitted (empty), the output
directory is the directory component of the input path; for input
"/scans/batch1.png" that is "/scans", and every output path is written
under "/scans/". -/
theorem C9_default_output_dir :
    (∀ input output_dir : String, output_dir ≠ "" →
      resolve_output_dir input output_dir = output_dir) ∧
    (∀ input : String, resolve_output_dir input "" = os_path_dirname input) ∧
    os_path_dirname "/scans/batch1.png" = "/scans" ∧
    (∀ (regions : List ConnectedComponent) (i : Nat), i < regions.length →
      ∃ rest : String,
        (divide_crop_and_straighten regions
          (resolve_output_dir "/scans/batch1.png" "") "batch1.png").getD i "" =
          "/scans/" ++ rest) := by
  refine ⟨?_, fun _ => rfl, rfl, ?_⟩
  · intro input output_dir h
    unfold resolve_output_dir
    rw [if_neg h]
  · intro regions i hi
    refine ⟨Nat.repr i ++ "_" ++ "batch1.png", ?_⟩
    have hres : resolve_output_dir "/scans/batch1.png" "" = "/scans" := rfl
    rw [hres]
    unfold divide_crop_and_straighten
    rw [outputPaths_getD _ 0 _ _ i hi, Nat.zero_add]
    rw [os_path_join_normal _ _ (outputName_head_ne_slash i "batch1.png")
      (by decide) (by decide)]
    rfl

/-- Witness for C9: the first output for input "/scans/batch1.png" with
omitted output directory lands under "/scans/". -/
theorem C9_default_output_dir_witness :
    (0 : Nat) < ([(⟨"A", 5, "srgb(0,0,0)"⟩ : ConnectedComponent)]).length ∧
    ∃ rest : String,
      (divide_crop_and_straighten [⟨"A", 5, "srgb(0,0,0)"⟩]
        (resolve_output_dir "/scans/batch1.png" "") "batch1.png").getD 0 "" =
        "/scans/" ++ rest :=
  ⟨by decide, C9_default_output_dir.2.2.2 [⟨"A", 5, "srgb(0,0,0)"⟩] 0 (by decide)⟩

/-- C10 counterexample: a report whose single component line is black with
area 0 is parsed as a black candidate, yet `get_photo_regions` returns the
empty sequence — the candidate fails `area >= 0.1 * max_area` against the
default `max_area = 1`. -/
theorem C10_counterexample :
    blackComponentsOf (reportLines "h\na b c 0x0+0+0 d 0 srgb(0,0,0)") =
      [⟨"0x0+0+0", 0, "srgb(0,0,0)"⟩] ∧
    get_photo_regions "h\na b c 0x0+0+0 d 0 srgb(0,0,0)" = .ok [] :=
  ⟨rfl, rfl⟩

/-- C10 (amended): if at least one parsed black-mean-color component has
`area >= 1` (the data model's invariant for real components), the returned
region sequence is non-empty: the largest candidate always passes the
10%-of-maximum filter. -/
theorem C10_black_candidate_gives_region (report : String)
    (res : List ConnectedComponent)
    (h : get_photo_regions report = .ok res)
    (hb : ∃ c ∈ blackComponentsOf (reportLines report), 1 ≤ c.area) :
    res ≠ [] := by
  obtain ⟨c0, hc0, hc0a⟩ := hb
  have hr := get_photo_regions_ok report res h
  have hM1 : 1 ≤ maxAreaOf (blackComponentsOf (reportLines report)) := by
    unfold maxAreaOf
    exact foldl_max_init_le _ 1
  rcases foldl_max_attained (blackComponentsOf (reportLines report)) 1 with hA | hA
  · have hok : areaOK (maxAreaOf (blackComponentsOf (reportLines report))) c0 = true := by
      unfold areaOK maxAreaOf
      rw [hA, decide_eq_true_eq]
      linarith
    have hmem : c0 ∈ res := by
      rw [hr]
      exact List.mem_filter.mpr ⟨hc0, hok⟩
    exact List.ne_nil_of_mem hmem
  · obtain ⟨cm, hcm, hcme⟩ := hA
    have hMe : maxAreaOf (blackComponentsOf (reportLines report)) = cm.area := by
      unfold maxAreaOf
      exact hcme
    have hcma : 1 ≤ cm.area := by
      rw [hMe] at hM1
      exact hM1
    have hok : areaOK (maxAreaOf (blackComponentsOf (reportLines report))) cm = true := by
      unfold areaOK
      rw [hMe, decide_eq_true_eq]
      linarith
    have hmem : cm ∈ res := by
      rw [hr]
      exact List.mem_filter.mpr ⟨hcm, hok⟩
    exact List.ne_nil_of_mem hmem

/-- Witness for the amended C10 on a report with one black area-5 component. -/
theorem C10_black_candidate_gives_region_witness :
    get_photo_regions "h\n0 1 2 3x3+0+0 4 5 srgb(0,0,0)" =
      .ok [⟨"3x3+0+0", 5, "srgb(0,0,0)"⟩] ∧
    (∃ c ∈ blackComponentsOf (reportLines "h\n0 1 2 3x3+0+0 4 5 srgb(0,0,0)"),
      1 ≤ c.area) ∧
    ([(⟨"3x3+0+0", 5, "srgb(0,0,0)"⟩ : ConnectedComponent)]) ≠ [] :=
  ⟨rfl, by decide,
    C10_black_candidate_gives_region "h\n0 1 2 3x3+0+0 4 5 srgb(0,0,0)" _ rfl (by decide)⟩

end DivideScannedPhotos
